import Mathlib

/-!
Shallow embedding of the multi-repository pattern scanner
(`scan_multiple_repos.py`, here `src/file.py`).

External process invocations (`git clone --mirror`, `git remote update`,
`git for-each-ref`, `git grep`) are modelled by their observable
outcome: either the process ran to completion with an exit code and a
list of captured stdout lines, or launching it failed (in Python an
`OSError` such as `FileNotFoundError` raised by `subprocess.run`, which
is NOT a `subprocess.CalledProcessError`).  `subprocess.run(...,
check=True)` returns the completed process on exit code 0, raises
`CalledProcessError` on a non-zero exit code, and lets a spawn failure
propagate as `OSError`.

A run is modelled as a trace of events: stdout lines, stderr lines,
each external tool invocation, and the creation/removal of the scratch
workspace directory.  Fallible functions return `Except PyError`,
where the `error` case models an uncaught Python exception propagating
to the caller.
-/

namespace MultiRepoScan

/-- Python exceptions relevant to the script. -/
inductive PyError where
  | fileNotFound (path : String)
  | calledProcessError (code : Nat)
  | osError
deriving DecidableEq, Repr

/-- Outcome of launching an external process: it either ran to
completion with an exit code and captured stdout lines, or launching
failed (modelling `OSError` from `subprocess.run`, e.g. the tool
binary missing). -/
inductive ProcOutcome where
  | completed (exitCode : Nat) (stdout : List String)
  | spawnError
deriving DecidableEq, Repr

/-- State of the repository-list file: it does not exist
(`path.exists()` is false), it exists but opening or reading it
raises (a directory, a permission-denied file, invalid UTF-8 — the
`fault` is the exception raised), or it is read successfully as its
raw lines. -/
inductive FileOutcome where
  | missing
  | unreadable (fault : PyError)
  | readable (raws : List String)
deriving DecidableEq, Repr

/-- One observable event of a run: a stdout line, a stderr line, an
external tool invocation, or a scratch-workspace operation. -/
inductive Event where
  | out (line : String)
  | err (line : String)
  | gitClone (url : String) (dest : String)
  | gitRemoteUpdate (dir : String)
  | gitForEachRef (dir : String)
  | gitGrep (dir : String) (refName : String)
  | mkdtemp (dir : String)
  | rmtree (dir : String)
deriving DecidableEq, Repr

/-- The hard-coded search pattern (`PATTERN = "cernel1.tar.gz"`). -/
def PATTERN : String := "cernel1.tar.gz"

/-- Python `str.strip()`: remove leading and trailing whitespace.
Defined structurally over the character list so that it evaluates
inside the kernel. -/
def pyStrip (s : String) : String :=
  String.mk (((s.data.dropWhile Char.isWhitespace).reverse.dropWhile Char.isWhitespace).reverse)

/-- Python `s.startswith(pre)`. -/
def pyStartsWith (s pre : String) : Bool :=
  pre.data.isPrefixOf s.data

/-- How one repository's external tools behave in a given run:
the outcome of the clone, of `git remote update`, of `git
for-each-ref`, and of `git grep` on each ref. -/
structure RepoEnv where
  clone : ProcOutcome
  remoteUpdate : ProcOutcome
  refsOutcome : ProcOutcome
  grep : String → ProcOutcome

/-- `clone_mirror(repo_url, dest)`: runs `git clone --mirror` with
`check=True` and catches only `subprocess.CalledProcessError`
(returning `False`); exit code 0 returns `True`; a spawn failure
(`OSError`) is not caught and propagates. -/
def clone_mirror (repo_url : String) (dest : String) (o : ProcOutcome) : Except PyError Bool :=
  match o with
  | .completed 0 _ => .ok true
  | .completed (_ + 1) _ => .ok false
  | .spawnError => .error .osError

/-- `get_refs(repo_dir)`: runs `git for-each-ref` with `check=True`;
on exit 0 returns the stripped non-empty stdout lines, on
`CalledProcessError` returns `[]`; a spawn failure propagates. -/
def get_refs (repo_dir : String) (o : ProcOutcome) : Except PyError (List String) :=
  match o with
  | .completed 0 out => .ok ((out.map pyStrip).filter (fun r => r ≠ ""))
  | .completed (_ + 1) _ => .ok []
  | .spawnError => .error .osError

/-- `grep_ref(repo_dir, ref, pattern)`: runs `git grep -I --no-color
-n -e pattern ref` with `check=True`; on exit 0 returns the non-blank
stdout lines (each `path:lineno:content`), on any
`CalledProcessError` (`git grep` exits 1 when nothing is found, other
codes on error) returns `[]`; a spawn failure propagates. -/
def grep_ref (repo_dir : String) (refName : String) (pattern : String)
    (o : ProcOutcome) : Except PyError (List String) :=
  match o with
  | .completed 0 out => .ok (out.filter (fun ln => pyStrip ln ≠ ""))
  | .completed (_ + 1) _ => .ok []
  | .spawnError => .error .osError

/-- Is the character kept unchanged by `sanitize_dirname`?
(`ch.isalnum() or ch in "._-"`). -/
def keepChar (c : Char) : Bool := c.isAlphanum || c = '.' || c = '_' || c = '-'

/-- The character loop of `sanitize_dirname`: each kept character is
appended unchanged, every other character is appended as `_`. -/
def sanitizeList : List Char → List Char
  | [] => []
  | c :: cs => (if keepChar c then c else '_') :: sanitizeList cs

/-- `sanitize_dirname(repo_url)`: build the sanitized character list,
join it, and truncate to 200 characters (`"".join(safe)[:200]`). -/
def sanitize_dirname (repo_url : String) : String :=
  String.mk ((sanitizeList repo_url.data) |>.take 200)

/-- The destination directory of one repository inside the scratch
workspace: `base_tmp / sanitize_dirname(repo_url)`. -/
def repoDirOf (base_tmp : String) (repo_url : String) : String :=
  base_tmp ++ "/" ++ sanitize_dirname repo_url

/-- One printed match line: `f"{repo_url} :: {ref} :: {ln}"`. -/
def tripleLine (repo_url : String) (refName : String) (ln : String) : String :=
  repo_url ++ " :: " ++ refName ++ " :: " ++ ln

/-- The `for ref in refs` loop of `process_repo`: grep each ref in
order; on the first ref with results print the one-time announcement,
then print every result line as a triple.  A grep spawn failure
aborts the loop and propagates (events printed so far are kept). -/
def searchLoop (repo_url : String) (repo_dir : String) (env : RepoEnv)
    (foundAny : Bool) : List String → List Event × Option PyError
  | [] => ([], none)
  | refName :: rest =>
    match grep_ref repo_dir refName PATTERN (env.grep refName) with
    | .error e => ([Event.gitGrep repo_dir refName], some e)
    | .ok lines =>
      if lines.isEmpty then
        let r := searchLoop repo_url repo_dir env foundAny rest
        (Event.gitGrep repo_dir refName :: r.1, r.2)
      else
        let ann : List Event :=
          if foundAny then [] else [Event.out ("Znaleziono w repo: " ++ repo_url)]
        let ms := lines.map (fun ln => Event.out (tripleLine repo_url refName ln))
        let r := searchLoop repo_url repo_dir env true rest
        (Event.gitGrep repo_dir refName :: (ann ++ ms ++ r.1), r.2)

/-- `process_repo(repo_url, base_tmp)`: print the header, clone (on
failure print an error on stderr and return), run `git remote update`
(outcome swallowed), list refs (if none, print a notice and return),
then run the search loop.  The second component is the uncaught
exception, if one propagated out. -/
def process_repo (repo_url : String) (base_tmp : String) (env : RepoEnv) :
    List Event × Option PyError :=
  let repo_dir := repoDirOf base_tmp repo_url
  let header := Event.out ("--- Repo: " ++ repo_url)
  match clone_mirror repo_url repo_dir env.clone with
  | .error e => ([header, Event.gitClone repo_url repo_dir], some e)
  | .ok false =>
    ([header, Event.gitClone repo_url repo_dir,
      Event.err ("BŁĄD: Nie udało się sklonować repo: " ++ repo_url)], none)
  | .ok true =>
    match get_refs repo_dir env.refsOutcome with
    | .error e =>
      ([header, Event.gitClone repo_url repo_dir, Event.gitRemoteUpdate repo_dir,
        Event.gitForEachRef repo_dir], some e)
    | .ok [] =>
      ([header, Event.gitClone repo_url repo_dir, Event.gitRemoteUpdate repo_dir,
        Event.gitForEachRef repo_dir,
        Event.out ("Brak refów do przeszukania w repo: " ++ repo_url)], none)
    | .ok (r :: rs) =>
      let res := searchLoop repo_url repo_dir env false (r :: rs)
      ([Event.out ("--- Repo: " ++ repo_url), Event.gitClone repo_url repo_dir,
        Event.gitRemoteUpdate repo_dir, Event.gitForEachRef repo_dir] ++ res.1, res.2)

/-- The line loop of `read_repos_file`: strip each raw line, skip it
if empty or starting with `#`, otherwise keep the stripped line. -/
def filterRepos : List String → List String
  | [] => []
  | raw :: rest =>
    let line := pyStrip raw
    if line = "" then filterRepos rest
    else if pyStartsWith line "#" then filterRepos rest
    else line :: filterRepos rest

/-- `read_repos_file(path)`: raise `FileNotFoundError(path)` when the
file does not exist; opening the file or iterating its lines may
itself raise (`IsADirectoryError`, `PermissionError`,
`UnicodeDecodeError`, ... — modelled by `FileOutcome.unreadable`),
and that exception propagates; otherwise return the filtered lines. -/
def read_repos_file (path : String) (file : FileOutcome) :
    Except PyError (List String) :=
  match file with
  | .missing => .error (.fileNotFound path)
  | .unreadable fault => .error fault
  | .readable raws => .ok (filterRepos raws)

/-- Rendering of a Python exception as the text `str(e)` used in the
orchestrator's error message. -/
def pyErrMsg : PyError → String
  | .fileNotFound p => "FileNotFoundError: " ++ p
  | .calledProcessError k => "CalledProcessError: exit " ++ toString k
  | .osError => "OSError"

/-- The interpreter's traceback print for an exception that escapes
`main` (modelled as a single stderr line). -/
def pyTraceback (e : PyError) : String :=
  "Traceback (most recent call last): " ++ pyErrMsg e

/-- Everything external a run depends on: the repo-list path and the
state of the file at it, the name `mkdtemp` gives the scratch
workspace, each repository's tool behaviour, and whether removing the
scratch workspace succeeds. -/
structure World where
  reposPath : String
  file : FileOutcome
  tmpdir : String
  env : String → RepoEnv
  rmtreeOk : Bool

/-- One iteration of the main loop: run `process_repo` inside
`try/except Exception`, printing the caught exception on stderr. -/
def runOne (w : World) (repo_url : String) : List Event :=
  let res := process_repo repo_url w.tmpdir (w.env repo_url)
  match res.2 with
  | none => res.1
  | some e =>
    res.1 ++ [Event.err ("BŁĄD podczas przetwarzania " ++ repo_url ++ ": " ++ pyErrMsg e)]

/-- The `for repo in repos` loop of `main`: every repository is
processed in order; a failure of one never stops the rest. -/
def mainLoop (w : World) : List String → List Event
  | [] => []
  | repo :: rest => runOne w repo ++ mainLoop w rest

/-- `main(argv)` together with the `raise SystemExit(main(sys.argv))`
entry point; the result is the trace and the process exit status.
`main` reads the repo list catching only `FileNotFoundError` (error
on stderr, exit 2); any other exception raised by the loader escapes
`main`, the interpreter prints a traceback and the process exits 1.
If the filtered list is empty a notice is printed and the exit is 0;
otherwise the scratch workspace is created, the loop runs, and the
`finally` removes the workspace (failure swallowed: the trace records
the removal attempt and the outcome is unobservable), then `Gotowe.`
is printed and the exit is 0. -/
def main (w : World) : List Event × Nat :=
  match read_repos_file w.reposPath w.file with
  | .error (.fileNotFound _) =>
    ([Event.err ("Plik z listą repozytoriów nie istnieje: " ++ w.reposPath)], 2)
  | .error e => ([Event.err (pyTraceback e)], 1)
  | .ok repos =>
    if repos.isEmpty then
      ([Event.out "Brak repozytoriów w pliku (poza komentarzami/pustymi liniami)."], 0)
    else
      (Event.mkdtemp w.tmpdir ::
        (mainLoop w repos ++ [Event.rmtree w.tmpdir, Event.out "Gotowe."]), 0)

/-- The stdout lines of a trace, in order. -/
def stdoutOf (tr : List Event) : List String :=
  tr.filterMap (fun e => match e with | Event.out s => some s | _ => none)

/-- Is the event the creation of the scratch workspace? -/
def isMkdtemp : Event → Bool
  | .mkdtemp _ => true
  | _ => false

/-- Is the event the removal of the scratch workspace? -/
def isRmtree : Event → Bool
  | .rmtree _ => true
  | _ => false

/-- Is the event an invocation of the external version-control tool? -/
def isExternalTool : Event → Bool
  | .gitClone _ _ => true
  | .gitRemoteUpdate _ => true
  | .gitForEachRef _ => true
  | .gitGrep _ _ => true
  | _ => false

/-! ### Concrete environments and worlds used as evaluation inputs -/

/-- A repository environment in which every external invocation fails
to launch. -/
def brokenEnv : RepoEnv :=
  { clone := .spawnError, remoteUpdate := .spawnError,
    refsOutcome := .spawnError, grep := fun _ => .spawnError }

/-- A world whose repo-list file exists but holds only a comment and a
blank line. -/
def wEmptyList : World :=
  { reposPath := "repos.txt", file := .readable ["# komentarz", "   "],
    tmpdir := "/tmp/scan_repos_w", env := fun _ => brokenEnv, rmtreeOk := true }

/-- A world with one repository whose processing raises (its clone
invocation fails to launch). -/
def wOne : World :=
  { reposPath := "repos.txt", file := .readable ["https://example.com/a.git"],
    tmpdir := "/tmp/scan_repos_w1", env := fun _ => brokenEnv, rmtreeOk := false }

/-- A world whose repo-list file does not exist. -/
def wMissing : World :=
  { reposPath := "repos.txt", file := .missing, tmpdir := "/tmp/scan_repos_w2",
    env := fun _ => brokenEnv, rmtreeOk := true }

/-- A world whose repo-list file exists but cannot be read: opening
it raises an `OSError` (as for a directory or a permission-denied
file). -/
def wUnreadable : World :=
  { reposPath := "repos.txt", file := .unreadable PyError.osError,
    tmpdir := "/tmp/scan_repos_w3", env := fun _ => brokenEnv, rmtreeOk := true }

/-- A repository environment whose clone tool exits with code 128. -/
def cloneFailEnv : RepoEnv :=
  { clone := .completed 128 [], remoteUpdate := .completed 0 [],
    refsOutcome := .completed 0 ["main"], grep := fun _ => .completed 0 [] }

/-- A world with two repositories whose clone invocations exit 128. -/
def wCloneFail : World :=
  { reposPath := "repos.txt", file := .readable ["u", "v"], tmpdir := "/t",
    env := fun _ => cloneFailEnv, rmtreeOk := true }

/-- A repository environment where grepping ref `m` exits 1 (nothing
found) and grepping any other ref exits 0 with one result line. -/
def grepMixedEnv : RepoEnv :=
  { clone := .completed 0 [], remoteUpdate := .completed 0 [],
    refsOutcome := .completed 0 ["a", "m", "b"],
    grep := fun r => if r = "m" then .completed 1 []
                     else .completed 0 ["f.txt:1:cernel1.tar.gz"] }

/-- A repository environment with one ref `main` and one grep result
line. -/
def foundEnv : RepoEnv :=
  { clone := .completed 0 [], remoteUpdate := .completed 0 [],
    refsOutcome := .completed 0 ["main"],
    grep := fun _ => .completed 0 ["config.yml:4:token=cernel1.tar.gz"] }

/-! ### Helper lemmas -/

@[simp] theorem stdoutOf_append (a b : List Event) :
    stdoutOf (a ++ b) = stdoutOf a ++ stdoutOf b := by
  simp [stdoutOf]

@[simp] theorem stdoutOf_nil : stdoutOf [] = [] := rfl

@[simp] theorem stdoutOf_cons_out (s : String) (t : List Event) :
    stdoutOf (Event.out s :: t) = s :: stdoutOf t := rfl

@[simp] theorem stdoutOf_cons_err (s : String) (t : List Event) :
    stdoutOf (Event.err s :: t) = stdoutOf t := rfl

@[simp] theorem stdoutOf_cons_gitClone (u d : String) (t : List Event) :
    stdoutOf (Event.gitClone u d :: t) = stdoutOf t := rfl

@[simp] theorem stdoutOf_cons_gitRemoteUpdate (d : String) (t : List Event) :
    stdoutOf (Event.gitRemoteUpdate d :: t) = stdoutOf t := rfl

@[simp] theorem stdoutOf_cons_gitForEachRef (d : String) (t : List Event) :
    stdoutOf (Event.gitForEachRef d :: t) = stdoutOf t := rfl

@[simp] theorem stdoutOf_cons_gitGrep (d r : String) (t : List Event) :
    stdoutOf (Event.gitGrep d r :: t) = stdoutOf t := rfl

@[simp] theorem stdoutOf_cons_mkdtemp (d : String) (t : List Event) :
    stdoutOf (Event.mkdtemp d :: t) = stdoutOf t := rfl

@[simp] theorem stdoutOf_cons_rmtree (d : String) (t : List Event) :
    stdoutOf (Event.rmtree d :: t) = stdoutOf t := rfl

@[simp] theorem stdoutOf_map_out (f : String → String) (l : List String) :
    stdoutOf (l.map (fun x => Event.out (f x))) = l.map f := by
  induction l with
  | nil => rfl
  | cons x xs ih => simp [ih]

/-- Equation: the search loop on an empty ref list. -/
theorem searchLoop_nil (repo_url repo_dir : String) (env : RepoEnv) (foundAny : Bool) :
    searchLoop repo_url repo_dir env foundAny [] = ([], none) := rfl

/-- Equation: the search loop when the grep of the head ref raises. -/
theorem searchLoop_cons_error (repo_url repo_dir : String) (env : RepoEnv)
    (foundAny : Bool) (refName : String) (rest : List String) (fault : PyError)
    (h : grep_ref repo_dir refName PATTERN (env.grep refName) = Except.error fault) :
    searchLoop repo_url repo_dir env foundAny (refName :: rest)
      = ([Event.gitGrep repo_dir refName], some fault) := by
  rw [searchLoop, h]

/-- Equation: the search loop when the grep of the head ref returns
no lines. -/
theorem searchLoop_cons_empty (repo_url repo_dir : String) (env : RepoEnv)
    (foundAny : Bool) (refName : String) (rest : List String)
    (h : grep_ref repo_dir refName PATTERN (env.grep refName) = Except.ok []) :
    searchLoop repo_url repo_dir env foundAny (refName :: rest)
      = (Event.gitGrep repo_dir refName
          :: (searchLoop repo_url repo_dir env foundAny rest).1,
         (searchLoop repo_url repo_dir env foundAny rest).2) := by
  rw [searchLoop, h]; rfl

/-- Equation: the search loop when the grep of the head ref returns at
least one line. -/
theorem searchLoop_cons_found (repo_url repo_dir : String) (env : RepoEnv)
    (foundAny : Bool) (refName : String) (rest : List String)
    (l0 : String) (ls : List String)
    (h : grep_ref repo_dir refName PATTERN (env.grep refName) = Except.ok (l0 :: ls)) :
    searchLoop repo_url repo_dir env foundAny (refName :: rest)
      = (Event.gitGrep repo_dir refName
          :: ((if foundAny then []
               else [Event.out ("Znaleziono w repo: " ++ repo_url)])
              ++ (l0 :: ls).map (fun ln => Event.out (tripleLine repo_url refName ln))
              ++ (searchLoop repo_url repo_dir env true rest).1),
         (searchLoop repo_url repo_dir env true rest).2) := by
  rw [searchLoop, h]; rfl

/-- No event of the search loop touches the scratch workspace. -/
theorem searchLoop_no_workspace (repo_url repo_dir : String) (env : RepoEnv) :
    ∀ (refs : List String) (foundAny : Bool),
      ∀ e ∈ (searchLoop repo_url repo_dir env foundAny refs).1,
        isMkdtemp e = false ∧ isRmtree e = false := by
  intro refs
  induction refs with
  | nil => intro foundAny e he; simp [searchLoop_nil] at he
  | cons refName rest ih =>
    intro foundAny e he
    cases hg : grep_ref repo_dir refName PATTERN (env.grep refName) with
    | error fault =>
      rw [searchLoop_cons_error repo_url repo_dir env foundAny refName rest fault hg] at he
      simp only [List.mem_singleton] at he
      subst he; exact ⟨rfl, rfl⟩
    | ok lines =>
      cases lines with
      | nil =>
        rw [searchLoop_cons_empty repo_url repo_dir env foundAny refName rest hg] at he
        rcases List.mem_cons.mp he with he | he
        · subst he; exact ⟨rfl, rfl⟩
        · exact ih foundAny e he
      | cons l0 ls =>
        rw [searchLoop_cons_found repo_url repo_dir env foundAny refName rest l0 ls hg] at he
        rcases List.mem_cons.mp he with he | he
        · subst he; exact ⟨rfl, rfl⟩
        rcases List.mem_append.mp he with he | he
        rotate_left
        · exact ih true e he
        rcases List.mem_append.mp he with he | he
        · by_cases hf : foundAny
          · simp [hf] at he
          · simp [hf] at he
            subst he; exact ⟨rfl, rfl⟩
        · rcases List.mem_map.mp he with ⟨ln, _, rfl⟩
          exact ⟨rfl, rfl⟩

/-- No event of `process_repo` touches the scratch workspace. -/
theorem process_repo_no_workspace (repo_url base_tmp : String) (env : RepoEnv) :
    ∀ e ∈ (process_repo repo_url base_tmp env).1,
      isMkdtemp e = false ∧ isRmtree e = false := by
  intro e he
  rw [process_repo] at he
  cases hc : clone_mirror repo_url (repoDirOf base_tmp repo_url) env.clone with
  | error fault =>
    rw [hc] at he
    simp only [List.mem_cons, List.not_mem_nil, or_false] at he
    rcases he with he | he <;> (subst he; exact ⟨rfl, rfl⟩)
  | ok okFlag =>
    cases okFlag with
    | false =>
      rw [hc] at he
      simp only [List.mem_cons, List.not_mem_nil, or_false] at he
      rcases he with he | he | he <;> (subst he; exact ⟨rfl, rfl⟩)
    | true =>
      rw [hc] at he
      cases hr : get_refs (repoDirOf base_tmp repo_url) env.refsOutcome with
      | error fault =>
        rw [hr] at he
        simp only [List.mem_cons, List.not_mem_nil, or_false] at he
        rcases he with he | he | he | he <;> (subst he; exact ⟨rfl, rfl⟩)
      | ok refs =>
        cases refs with
        | nil =>
          rw [hr] at he
          simp only [List.mem_cons, List.not_mem_nil, or_false] at he
          rcases he with he | he | he | he | he <;> (subst he; exact ⟨rfl, rfl⟩)
        | cons r0 rs =>
          rw [hr] at he
          simp only [List.mem_append, List.mem_cons, List.not_mem_nil, or_false] at he
          rcases he with (he | he | he | he) | he
          · subst he; exact ⟨rfl, rfl⟩
          · subst he; exact ⟨rfl, rfl⟩
          · subst he; exact ⟨rfl, rfl⟩
          · subst he; exact ⟨rfl, rfl⟩
          · exact searchLoop_no_workspace repo_url (repoDirOf base_tmp repo_url) env
              (r0 :: rs) false e he

/-- No event of one main-loop iteration touches the scratch workspace. -/
theorem runOne_no_workspace (w : World) (repo : String) :
    ∀ e ∈ runOne w repo, isMkdtemp e = false ∧ isRmtree e = false := by
  intro e he
  rw [runOne] at he
  cases hp : (process_repo repo w.tmpdir (w.env repo)).2 with
  | none =>
    rw [hp] at he
    exact process_repo_no_workspace repo w.tmpdir (w.env repo) e he
  | some fault =>
    rw [hp] at he
    rcases List.mem_append.mp he with he | he
    · exact process_repo_no_workspace repo w.tmpdir (w.env repo) e he
    · simp only [List.mem_singleton] at he
      subst he; exact ⟨rfl, rfl⟩

/-- No event of the main loop touches the scratch workspace. -/
theorem mainLoop_no_workspace (w : World) :
    ∀ (repos : List String), ∀ e ∈ mainLoop w repos,
      isMkdtemp e = false ∧ isRmtree e = false := by
  intro repos
  induction repos with
  | nil => intro e he; simp [mainLoop] at he
  | cons repo rest ih =>
    intro e he
    rcases List.mem_append.mp he with he | he
    · exact runOne_no_workspace w repo e he
    · exact ih e he

/-- The main loop never reads the removal-success flag. -/
theorem mainLoop_rmtree_indep (p : String) (f : FileOutcome) (t : String)
    (e : String → RepoEnv) (b1 b2 : Bool) (repos : List String) :
    mainLoop ⟨p, f, t, e, b1⟩ repos = mainLoop ⟨p, f, t, e, b2⟩ repos := by
  induction repos with
  | nil => rfl
  | cons repo rest ih => simp only [mainLoop, ih]; rfl

/-- The whole run never reads the removal-success flag: a failed
scratch-workspace removal is swallowed without any observable
difference. -/
theorem main_rmtree_indep (p : String) (f : FileOutcome) (t : String)
    (e : String → RepoEnv) (b1 b2 : Bool) :
    main ⟨p, f, t, e, b1⟩ = main ⟨p, f, t, e, b2⟩ := by
  cases f with
  | missing => rfl
  | unreadable fault => cases fault <;> rfl
  | readable raws =>
    have hml := mainLoop_rmtree_indep p (FileOutcome.readable raws) t e b1 b2
      (filterRepos raws)
    simp only [main, read_repos_file]
    by_cases he : (filterRepos raws).isEmpty <;> simp [he, hml]

theorem filterRepos_eq_filter (raws : List String) :
    filterRepos raws
      = (raws.map pyStrip).filter (fun l => !(l == "" || pyStartsWith l "#")) := by
  induction raws with
  | nil => rfl
  | cons raw rest ih =>
    simp only [filterRepos, List.map_cons, List.filter_cons]
    by_cases h1 : pyStrip raw = ""
    · simp [h1, ih]
    · by_cases h2 : pyStartsWith (pyStrip raw) "#" <;> simp [h1, h2, ih]

theorem sanitizeList_eq_map (l : List Char) :
    sanitizeList l = l.map (fun c => if keepChar c then c else '_') := by
  induction l with
  | nil => rfl
  | cons c cs ih => simp [sanitizeList, ih]

/-! ### Claims -/

/-- C2: for every existing input file, `read_repos_file` returns exactly
the sequence of its lines after trimming surrounding whitespace, with
empty lines and lines whose first non-whitespace character is `#`
removed, preserving duplicates and the original order. -/
theorem read_repos_file_filters (path : String) (raws : List String) :
    read_repos_file path (FileOutcome.readable raws)
      = Except.ok ((raws.map pyStrip).filter
          (fun l => !(l == "" || pyStartsWith l "#"))) := by
  simp [read_repos_file, filterRepos_eq_filter]

/-- C3 counterexample: a repository-list file that exists but cannot
be read — opening it raises an `OSError`, as for a directory or a
permission-denied path — makes the loader raise an error that is not
`FileNotFoundError`; `main` does not catch it and the interpreter
exits with code 1: a non-zero exit although the file is not missing,
refuting that the missing file is the only source of a non-zero
exit. -/
theorem unreadable_file_nonzero_exit :
    wUnreadable.file ≠ FileOutcome.missing ∧
    read_repos_file wUnreadable.reposPath wUnreadable.file
      = Except.error PyError.osError ∧
    (main wUnreadable).2 = 1 ∧
    (main wUnreadable).2 ≠ 0 ∧
    (main wUnreadable).2 ≠ 2 := by
  refine ⟨?_, rfl, rfl, ?_, ?_⟩ <;> decide

/-- C3 amended: a missing repo-list file makes the loader fail with
`FileNotFoundError` and the process exit with code 2, and exit code 2
arises only from a `FileNotFoundError` of the loader; every run whose
repo-list file is read successfully exits with code 0; an existing
file whose opening or reading raises anything else escapes `main`
uncaught and the interpreter exits with code 1. -/
theorem loader_exit_codes (w : World) :
    (w.file = FileOutcome.missing →
      (main w).2 = 2 ∧
      read_repos_file w.reposPath w.file
        = Except.error (PyError.fileNotFound w.reposPath)) ∧
    (∀ raws, w.file = FileOutcome.readable raws → (main w).2 = 0) ∧
    (∀ fault, w.file = FileOutcome.unreadable fault →
      (∀ p, fault ≠ PyError.fileNotFound p) →
      read_repos_file w.reposPath w.file = Except.error fault ∧ (main w).2 = 1) ∧
    ((main w).2 = 2 →
      ∃ p, read_repos_file w.reposPath w.file
        = Except.error (PyError.fileNotFound p)) ∧
    ((main w).2 ≠ 0 → ∀ raws, w.file ≠ FileOutcome.readable raws) := by
  cases hf : w.file with
  | missing =>
    have h2 : (main w).2 = 2 := by simp [main, read_repos_file, hf]
    refine ⟨fun _ => ⟨h2, by simp [read_repos_file]⟩,
      fun raws h => FileOutcome.noConfusion h,
      fun fault h => FileOutcome.noConfusion h,
      fun _ => ⟨w.reposPath, by simp [read_repos_file]⟩,
      fun _ raws h => FileOutcome.noConfusion h⟩
  | readable raws0 =>
    have h0 : (main w).2 = 0 := by
      simp only [main, read_repos_file, hf]
      by_cases he : (filterRepos raws0).isEmpty <;> simp [he]
    refine ⟨fun h => FileOutcome.noConfusion h, fun raws _ => h0,
      fun fault h => FileOutcome.noConfusion h, ?_, fun hne => absurd h0 hne⟩
    intro h2; rw [h0] at h2; exact absurd h2 (by decide)
  | unreadable fault =>
    cases fault with
    | fileNotFound p =>
      refine ⟨fun h => FileOutcome.noConfusion h,
        fun raws h => FileOutcome.noConfusion h, ?_, ?_,
        fun _ raws h => FileOutcome.noConfusion h⟩
      · intro fault2 heq hnp
        injection heq with h
        exact absurd h.symm (hnp p)
      · intro _; exact ⟨p, by simp [read_repos_file]⟩
    | calledProcessError k =>
      have h1 : (main w).2 = 1 := by simp [main, read_repos_file, hf]
      refine ⟨fun h => FileOutcome.noConfusion h,
        fun raws h => FileOutcome.noConfusion h, ?_, ?_,
        fun _ raws h => FileOutcome.noConfusion h⟩
      · intro fault2 heq hnp
        injection heq with h
        subst h
        exact ⟨by simp [read_repos_file], h1⟩
      · intro h2; rw [h1] at h2; exact absurd h2 (by decide)
    | osError =>
      have h1 : (main w).2 = 1 := by simp [main, read_repos_file, hf]
      refine ⟨fun h => FileOutcome.noConfusion h,
        fun raws h => FileOutcome.noConfusion h, ?_, ?_,
        fun _ raws h => FileOutcome.noConfusion h⟩
      · intro fault2 heq hnp
        injection heq with h
        subst h
        exact ⟨by simp [read_repos_file], h1⟩
      · intro h2; rw [h1] at h2; exact absurd h2 (by decide)

/-- Witness for C3 (amended) at concrete worlds: a missing file exits
2, a readable file exits 0, an unreadable file exits 1. -/
theorem loader_exit_codes_witness :
    (main wMissing).2 = 2 ∧ (main wOne).2 = 0 ∧ (main wUnreadable).2 = 1 :=
  ⟨((loader_exit_codes wMissing).1 rfl).1,
   (loader_exit_codes wOne).2.1 ["https://example.com/a.git"] rfl,
   ((loader_exit_codes wUnreadable).2.2.1 PyError.osError rfl
      (fun p h => PyError.noConfusion h)).2⟩

/-- C5 counterexample: when launching the clone tool itself fails
(`subprocess.run` raises `OSError`, e.g. the `git` binary is missing),
`clone_mirror` does not return a boolean at all — the exception
propagates to the caller, refuting "never raises, whatever the
failure's kind". -/
theorem clone_mirror_spawn_failure_raises :
    clone_mirror "https://example.com/a.git" "/tmp/scan/a" ProcOutcome.spawnError
        = Except.error PyError.osError ∧
    clone_mirror "https://example.com/a.git" "/tmp/scan/a" ProcOutcome.spawnError
        ≠ Except.ok false ∧
    clone_mirror "https://example.com/a.git" "/tmp/scan/a" ProcOutcome.spawnError
        ≠ Except.ok true := by
  refine ⟨rfl, fun h => Except.noConfusion h, fun h => Except.noConfusion h⟩

/-- C5 amended: whenever the underlying clone invocation runs to
completion with an exit status, `clone_mirror` raises nothing and
returns a boolean: `true` on exit 0, `false` on every non-zero exit
(the `CalledProcessError` is swallowed). -/
theorem clone_mirror_completed_returns_bool (repo_url dest : String)
    (k : Nat) (out : List String) :
    clone_mirror repo_url dest (ProcOutcome.completed k out)
      = Except.ok (k == 0) := by
  cases k <;> rfl

/-- C8: the sanitized directory name replaces each character that is
neither alphanumeric nor one of `.`, `_`, `-` with `_`, leaves all
other characters unchanged and in order, and truncates the result to
at most 200 characters. -/
theorem sanitize_dirname_spec (repo_url : String) :
    (sanitize_dirname repo_url).data
      = (repo_url.data.map
          (fun c => if c.isAlphanum || c = '.' || c = '_' || c = '-' then c else '_')).take 200 ∧
    (sanitize_dirname repo_url).length ≤ 200 := by
  constructor
  · simp [sanitize_dirname, sanitizeList_eq_map, keepChar]
  · show ((sanitizeList repo_url.data).take 200).length ≤ 200
    exact List.length_take_le 200 (sanitizeList repo_url.data)

/-- C9: the sanitizing transform is not injective — two distinct
repository references map to the same directory name, so within one
run their mirror clones target the same destination path. -/
theorem sanitize_dirname_not_injective :
    ("a@b" : String) ≠ "a:b" ∧
    sanitize_dirname "a@b" = sanitize_dirname "a:b" ∧
    repoDirOf "/tmp/scan_repos_x" "a@b" = repoDirOf "/tmp/scan_repos_x" "a:b" := by
  refine ⟨by decide, by decide, by decide⟩

/-- C10: an input file whose filtered repo list is empty makes the
program print the notice and exit 0, creating no scratch workspace
and invoking no external tool. -/
theorem empty_repo_list_noop (w : World) (raws : List String)
    (hf : w.file = FileOutcome.readable raws) (he : filterRepos raws = []) :
    main w = ([Event.out "Brak repozytoriów w pliku (poza komentarzami/pustymi liniami)."], 0) ∧
    (main w).1.countP isMkdtemp = 0 ∧
    (main w).1.countP isRmtree = 0 ∧
    (main w).1.countP isExternalTool = 0 := by
  have hm : main w
      = ([Event.out "Brak repozytoriów w pliku (poza komentarzami/pustymi liniami)."], 0) := by
    simp [main, read_repos_file, hf, he]
  rw [hm]
  exact ⟨rfl, rfl, rfl, rfl⟩

/-- Witness for C10 at the concrete world `wEmptyList`. -/
theorem empty_repo_list_noop_witness :
    main wEmptyList
      = ([Event.out "Brak repozytoriów w pliku (poza komentarzami/pustymi liniami)."], 0) :=
  (empty_repo_list_noop wEmptyList ["# komentarz", "   "] rfl (by decide)).1

/-- C7: whenever repositories are to be processed, the scratch
workspace is created exactly once, at the very start (before any
cloning or other event), and removed exactly once, at the end of the
run after all repositories — including ones whose processing raised —
with the removal outcome unobservable (failures swallowed). -/
theorem workspace_lifecycle (w : World) (raws : List String) (b : Bool)
    (hf : w.file = FileOutcome.readable raws) (hne : filterRepos raws ≠ []) :
    (main w).1
      = Event.mkdtemp w.tmpdir
          :: (mainLoop w (filterRepos raws)
              ++ [Event.rmtree w.tmpdir, Event.out "Gotowe."]) ∧
    (main w).1.countP isMkdtemp = 1 ∧
    (main w).1.countP isRmtree = 1 ∧
    main { w with rmtreeOk := b } = main w := by
  have hE : (filterRepos raws).isEmpty = false := List.isEmpty_eq_false.mpr hne
  have htrace : (main w).1
      = Event.mkdtemp w.tmpdir
          :: (mainLoop w (filterRepos raws)
              ++ [Event.rmtree w.tmpdir, Event.out "Gotowe."]) := by
    simp [main, read_repos_file, hf, hE]
  have hcount : ∀ p : Event → Bool,
      (∀ e ∈ mainLoop w (filterRepos raws), p e = false) →
      (mainLoop w (filterRepos raws)).countP p = 0 := by
    intro p hp
    exact List.countP_eq_zero.mpr (fun a ha => by simp [hp a ha])
  refine ⟨htrace, ?_, ?_, ?_⟩
  · rw [htrace]
    simp [List.countP_cons, List.countP_append, isMkdtemp,
      hcount isMkdtemp (fun e he => (mainLoop_no_workspace w _ e he).1)]
  · rw [htrace]
    simp [List.countP_cons, List.countP_append, isRmtree,
      hcount isRmtree (fun e he => (mainLoop_no_workspace w _ e he).2)]
  · cases w with
    | mk p f t e b0 => exact main_rmtree_indep p f t e b b0

/-- Witness for C7 at the concrete world `wOne`, whose single
repository raises during processing. -/
theorem workspace_lifecycle_witness :
    (main wOne).1.countP isMkdtemp = 1 ∧ (main wOne).1.countP isRmtree = 1 :=
  ⟨(workspace_lifecycle wOne ["https://example.com/a.git"] true rfl
      (by decide)).2.1,
   (workspace_lifecycle wOne ["https://example.com/a.git"] true rfl
      (by decide)).2.2.1⟩

/-- C6: for every repository whose clone attempt fails — by a non-zero
exit of the clone tool or by the invocation raising — no ref listing
and no search is attempted for it, an error line is written to the
error stream, and the loop continues with the remaining repositories
unchanged. -/
theorem clone_failure_contained (w : World) (repo : String) (rest : List String)
    (hfail : clone_mirror repo (repoDirOf w.tmpdir repo) ((w.env repo).clone)
      ≠ Except.ok true) :
    (∀ d, Event.gitForEachRef d ∉ runOne w repo) ∧
    (∀ d r, Event.gitGrep d r ∉ runOne w repo) ∧
    (∃ s, Event.err s ∈ runOne w repo) ∧
    mainLoop w (repo :: rest) = runOne w repo ++ mainLoop w rest := by
  cases hc : (w.env repo).clone with
  | completed k out =>
    cases k with
    | zero => exact absurd (by rw [hc]; rfl) hfail
    | succ n =>
      have hr : runOne w repo
          = [Event.out ("--- Repo: " ++ repo),
             Event.gitClone repo (repoDirOf w.tmpdir repo),
             Event.err ("BŁĄD: Nie udało się sklonować repo: " ++ repo)] := by
        rw [runOne, process_repo, hc]; rfl
      refine ⟨?_, ?_, ⟨"BŁĄD: Nie udało się sklonować repo: " ++ repo, ?_⟩, ?_⟩
      · intro d; rw [hr]; simp
      · intro d r; rw [hr]; simp
      · rw [hr]; simp
      · rw [mainLoop]
  | spawnError =>
    have hr : runOne w repo
        = [Event.out ("--- Repo: " ++ repo),
           Event.gitClone repo (repoDirOf w.tmpdir repo),
           Event.err ("BŁĄD podczas przetwarzania " ++ repo ++ ": " ++ pyErrMsg .osError)] := by
      rw [runOne, process_repo, hc]; rfl
    refine ⟨?_, ?_,
      ⟨"BŁĄD podczas przetwarzania " ++ repo ++ ": " ++ pyErrMsg .osError, ?_⟩, ?_⟩
    · intro d; rw [hr]; simp
    · intro d r; rw [hr]; simp
    · rw [hr]; simp
    · rw [mainLoop]

/-- Witness for C6 at the concrete world `wCloneFail`, whose clone
tool exits 128. -/
theorem clone_failure_contained_witness :
    (∀ d, Event.gitForEachRef d ∉ runOne wCloneFail "u") ∧
    mainLoop wCloneFail ["u", "v"] = runOne wCloneFail "u" ++ mainLoop wCloneFail ["v"] := by
  have h := clone_failure_contained wCloneFail "u" ["v"]
    (by intro hcontra; exact Bool.noConfusion (Except.ok.inj hcontra))
  exact ⟨h.1, h.2.2.2⟩

/-- C4: the ref searcher returns an empty sequence for every non-zero
exit of the underlying tool — the "no matches found" exit 1 and any
other failing exit are indistinguishable to the caller — and a ref
whose search came back empty contributes no match line and no found
announcement to the printed output. -/
theorem grep_failures_empty :
    (∀ (dir refName pat : String) (k : Nat) (out : List String), k ≠ 0 →
      grep_ref dir refName pat (ProcOutcome.completed k out) = Except.ok []) ∧
    (∀ (dir refName pat : String) (k1 k2 : Nat) (out1 out2 : List String),
      k1 ≠ 0 → k2 ≠ 0 →
      grep_ref dir refName pat (ProcOutcome.completed k1 out1)
        = grep_ref dir refName pat (ProcOutcome.completed k2 out2)) ∧
    (∀ (repo_url repo_dir : String) (env : RepoEnv) (foundAny : Bool)
      (refName : String) (xs ys : List String),
      grep_ref repo_dir refName PATTERN (env.grep refName) = Except.ok [] →
      stdoutOf (searchLoop repo_url repo_dir env foundAny (xs ++ refName :: ys)).1
        = stdoutOf (searchLoop repo_url repo_dir env foundAny (xs ++ ys)).1) := by
  have hzero : ∀ (dir refName pat : String) (k : Nat) (out : List String), k ≠ 0 →
      grep_ref dir refName pat (ProcOutcome.completed k out) = Except.ok [] := by
    intro dir refName pat k out hk
    cases k with
    | zero => exact absurd rfl hk
    | succ n => rfl
  refine ⟨hzero, ?_, ?_⟩
  · intro dir refName pat k1 k2 out1 out2 h1 h2
    rw [hzero dir refName pat k1 out1 h1, hzero dir refName pat k2 out2 h2]
  · intro repo_url repo_dir env foundAny refName xs ys hg
    induction xs generalizing foundAny with
    | nil =>
      rw [List.nil_append, List.nil_append,
        searchLoop_cons_empty repo_url repo_dir env foundAny refName ys hg]
      simp
    | cons x xs2 ih =>
      rw [List.cons_append, List.cons_append]
      cases hx : grep_ref repo_dir x PATTERN (env.grep x) with
      | error fault =>
        rw [searchLoop_cons_error repo_url repo_dir env foundAny x (xs2 ++ refName :: ys) fault hx,
          searchLoop_cons_error repo_url repo_dir env foundAny x (xs2 ++ ys) fault hx]
      | ok lines =>
        cases lines with
        | nil =>
          rw [searchLoop_cons_empty repo_url repo_dir env foundAny x (xs2 ++ refName :: ys) hx,
            searchLoop_cons_empty repo_url repo_dir env foundAny x (xs2 ++ ys) hx]
          simpa using ih foundAny
        | cons l0 ls =>
          rw [searchLoop_cons_found repo_url repo_dir env foundAny x (xs2 ++ refName :: ys) l0 ls hx,
            searchLoop_cons_found repo_url repo_dir env foundAny x (xs2 ++ ys) l0 ls hx]
          simp [ih true]

/-- Witness for C4: exits 1 and 2 both yield the empty result, and in
`grepMixedEnv` the empty-result ref `m` contributes nothing to the
printed output. -/
theorem grep_failures_empty_witness :
    grep_ref "d" "m" PATTERN (ProcOutcome.completed 1 ["junk:1:x"]) = Except.ok [] ∧
    grep_ref "d" "m" PATTERN (ProcOutcome.completed 1 ["junk:1:x"])
      = grep_ref "d" "m" PATTERN (ProcOutcome.completed 2 []) ∧
    stdoutOf (searchLoop "u" "d" grepMixedEnv false (["a"] ++ "m" :: ["b"])).1
      = stdoutOf (searchLoop "u" "d" grepMixedEnv false (["a"] ++ ["b"])).1 :=
  ⟨grep_failures_empty.1 "d" "m" PATTERN 1 ["junk:1:x"] (by decide),
   grep_failures_empty.2.1 "d" "m" PATTERN 1 2 ["junk:1:x"] [] (by decide) (by decide),
   grep_failures_empty.2.2 "u" "d" grepMixedEnv false "m" ["a"] ["b"] rfl⟩

/-- With the found-flag already set, the search loop prints exactly
the triples of every ref's result lines, refs in order. -/
theorem searchLoop_stdout_found (repo_url repo_dir : String) (env : RepoEnv)
    (L : String → List String) :
    ∀ refs : List String,
      (∀ r ∈ refs, grep_ref repo_dir r PATTERN (env.grep r) = Except.ok (L r)) →
      stdoutOf (searchLoop repo_url repo_dir env true refs).1
        = refs.flatMap (fun r => (L r).map (tripleLine repo_url r)) := by
  intro refs
  induction refs with
  | nil => intro _; rfl
  | cons refName rest ih =>
    intro hall
    have hg := hall refName (List.mem_cons_self refName rest)
    have hrest := fun r hr => hall r (List.mem_cons_of_mem refName hr)
    cases hL : L refName with
    | nil =>
      rw [hL] at hg
      rw [searchLoop_cons_empty repo_url repo_dir env true refName rest hg]
      simp [hL, ih hrest]
    | cons l0 ls =>
      rw [hL] at hg
      rw [searchLoop_cons_found repo_url repo_dir env true refName rest l0 ls hg]
      simp [hL, ih hrest]

/-- With the found-flag still clear and at least one ref yielding a
result, the search loop prints the one-time announcement first and
then exactly the triples of every ref's result lines, refs in order. -/
theorem searchLoop_stdout_first_found (repo_url repo_dir : String) (env : RepoEnv)
    (L : String → List String) :
    ∀ refs : List String,
      (∀ r ∈ refs, grep_ref repo_dir r PATTERN (env.grep r) = Except.ok (L r)) →
      (∃ r ∈ refs, L r ≠ []) →
      stdoutOf (searchLoop repo_url repo_dir env false refs).1
        = ("Znaleziono w repo: " ++ repo_url)
            :: refs.flatMap (fun r => (L r).map (tripleLine repo_url r)) := by
  intro refs
  induction refs with
  | nil => intro _ hex; simp at hex
  | cons refName rest ih =>
    intro hall hex
    have hg := hall refName (List.mem_cons_self refName rest)
    have hrest := fun r hr => hall r (List.mem_cons_of_mem refName hr)
    cases hL : L refName with
    | nil =>
      have hex2 : ∃ r ∈ rest, L r ≠ [] := by
        rcases hex with ⟨r, hr, hne⟩
        rcases List.mem_cons.mp hr with rfl | hr2
        · exact absurd hL hne
        · exact ⟨r, hr2, hne⟩
      rw [hL] at hg
      rw [searchLoop_cons_empty repo_url repo_dir env false refName rest hg]
      simp [hL, ih hrest hex2]
    | cons l0 ls =>
      rw [hL] at hg
      rw [searchLoop_cons_found repo_url repo_dir env false refName rest l0 ls hg]
      simp [hL, searchLoop_stdout_found repo_url repo_dir env L rest hrest]

/-- C1: for a repository whose clone succeeds, whose ref listing
returns `refs`, and where at least one ref's search yields a result
line, the stdout of `process_repo` is exactly the header, then ONE
found-in-repository announcement (before the first match line), then
every result line of every matching ref as the triple
`repo :: ref :: line`, refs in the enumerator's order. -/
theorem found_announcement_once (repo_url base_tmp : String) (env : RepoEnv)
    (refs : List String) (L : String → List String)
    (hclone : clone_mirror repo_url (repoDirOf base_tmp repo_url) env.clone
      = Except.ok true)
    (hrefs : get_refs (repoDirOf base_tmp repo_url) env.refsOutcome = Except.ok refs)
    (hgrep : ∀ r ∈ refs,
      grep_ref (repoDirOf base_tmp repo_url) r PATTERN (env.grep r) = Except.ok (L r))
    (hfound : ∃ r ∈ refs, L r ≠ []) :
    stdoutOf (process_repo repo_url base_tmp env).1
      = ("--- Repo: " ++ repo_url)
          :: ("Znaleziono w repo: " ++ repo_url)
          :: refs.flatMap (fun r => (L r).map (tripleLine repo_url r)) := by
  cases refs with
  | nil => simp at hfound
  | cons r0 rs =>
    have hs := searchLoop_stdout_first_found repo_url (repoDirOf base_tmp repo_url)
      env L (r0 :: rs) hgrep hfound
    simp only [process_repo, hclone, hrefs]
    simp [hs]

/-- Witness for C1 at the concrete environment `foundEnv`: one ref
`main`, one match line, announced once. -/
theorem found_announcement_once_witness :
    stdoutOf (process_repo "https://example.com/a.git" "/tmp/scan_repos_w" foundEnv).1
      = ["--- Repo: https://example.com/a.git",
         "Znaleziono w repo: https://example.com/a.git",
         "https://example.com/a.git :: main :: config.yml:4:token=cernel1.tar.gz"] := by
  have h := found_announcement_once "https://example.com/a.git" "/tmp/scan_repos_w"
    foundEnv ["main"] (fun _ => ["config.yml:4:token=cernel1.tar.gz"])
    rfl rfl (fun r _ => rfl) ⟨"main", by decide, by decide⟩
  rw [h]
  rfl

end MultiRepoScan
